import Mathlib

/-!
Shallow embedding of the resilient link-and-message pipeline of the
pi-meshtastic-setup repository (src/main.py, src/meshtastic-retro-ui.py,
src/meshtastic-retro-ui-old.py), together with theorems settling the
frozen claims about its specification.

Conventions:
* Python floats carrying unix timestamps are modelled as rationals (ℚ);
  the only arithmetic performed on them by the code (comparison with 1e12
  and division by 1000) is exact on the values of interest.
* Python strings are modelled as `List Char` where the code slices them
  (slicing is by code point, exactly `List.take`), and as `String` where
  they are only carried around (sender names, log lines).
* `queue.Queue(cap).put(x)` blocks when the queue holds `cap` items; a
  blocked put is modelled by a dedicated result constructor, since in the
  handler under study no consumer can make progress while the handler is
  blocked.
* Databases and queues are modelled as lists in insertion order.
-/

/-- A stored message: row of the `messages(ts REAL, src TEXT, txt TEXT)`
table and element of the in-memory lists. -/
structure Msg where
  ts  : ℚ
  src : String
  txt : List Char
deriving DecidableEq

/-- Constant `MAX_LEN = 240` (both main.py and meshtastic-retro-ui.py). -/
def MAX_LEN : ℕ := 240

/-- Capacity of `incoming_q = queue.Queue(1024)`. -/
def INBOX_CAP : ℕ := 1024

/-- Capacity of `outgoing_q = queue.Queue(256)` (meshtastic-retro-ui.py). -/
def OUTBOX_CAP : ℕ := 256

/-- Timestamp normalization in `on_text` (main.py lines 55-57) and
`on_receive_text` (meshtastic-retro-ui.py lines 83-84):
`if ts > 1e12: ts /= 1000`. -/
def normTs (ts : ℚ) : ℚ :=
  if ts > 1000000000000 then ts / 1000 else ts

/-- An inbound packet as read by `on_text` (main.py). `decodedText` is
`decoded.get("text")`; Python-falsy values (missing key or empty string)
are both observable, so the empty string is kept distinct from `none`.
`rxTime` merges `getattr(packet, "rxTime", packet.get("timestamp", …))`
into one optional field; `fromId` likewise merges the
`fromId`/`from.userAlias` lookups (falsy values modelled as `none`). -/
structure MPacket where
  decodedText : Option (List Char)
  rxTime : Option ℚ
  fromId : Option String
deriving DecidableEq

/-- State touched by the ingest handler: the sqlite `messages` table, the
bounded `incoming_q`, and the json log file (entries abstracted). -/
structure IngestState where
  db  : List Msg
  inq : List Msg
  log : List String
deriving DecidableEq

/-- Outcome of one `on_text` call. `ignored`: returned early (no text).
`done`: row inserted and tuple enqueued. `blocked`: row inserted, but
`incoming_q.put` found the queue at capacity and blocks (Python
`Queue.put` with default `block=True`). -/
inductive OnTextResult
  | ignored (s : IngestState)
  | done (s : IngestState)
  | blocked (s : IngestState)
deriving DecidableEq

/-- The pure packet-to-message part of `on_text` (main.py lines 50-59):
`text = decoded.get("text"); if not text: return` (None and the empty
string are both falsy), then timestamp normalization, sender fallback
`"unknown"`, and `txt = text[:MAX_LEN]` (slice by code points). `now` is
the `time.time()` fallback. -/
def ingestMsg (p : MPacket) (now : ℚ) : Option Msg :=
  match p.decodedText with
  | none => none
  | some [] => none
  | some text =>
    let ts := normTs (p.rxTime.getD now)
    let src := p.fromId.getD "unknown"
    some ⟨ts, src, text.take MAX_LEN⟩

/-- Handler `on_text` (main.py lines 48-66): parse; on no text return unchanged;
otherwise append the raw-packet json line to the log, insert the row into
the db, and then `incoming_q.put(...)` — a blocking put against the
capacity-1024 queue. -/
def on_text (p : MPacket) (now : ℚ) (s : IngestState) : OnTextResult :=
  match ingestMsg p now with
  | none => .ignored s
  | some m =>
    let s1 : IngestState := ⟨s.db ++ [m], s.inq, s.log ++ ["rawpacket"]⟩
    if s1.inq.length < INBOX_CAP then .done ⟨s1.db, s1.inq ++ [m], s1.log⟩
    else .blocked s1

/-- Handler `on_text` with store-failure injection. In main.py the insert
`with db: db.execute("INSERT INTO messages VALUES (?,?,?)", …)` is not
wrapped in any try/except, so a store failure escapes the handler; the
subsequent enqueue is skipped. -/
def on_text_fallible (dbFails : Bool) (p : MPacket) (now : ℚ)
    (s : IngestState) : Except String OnTextResult :=
  match ingestMsg p now with
  | none => .ok (.ignored s)
  | some m =>
    let s1 : IngestState := ⟨s.db, s.inq, s.log ++ ["rawpacket"]⟩
    if dbFails then .error "db insert failed"
    else
      let s2 : IngestState := ⟨s1.db ++ [m], s1.inq, s1.log⟩
      if s2.inq.length < INBOX_CAP then .ok (.done ⟨s2.db, s2.inq ++ [m], s2.log⟩)
      else .ok (.blocked s2)

/-! ## Old variant (meshtastic-retro-ui-old.py) -/

/-- A packet as read by the old variant's `on_receive`:
`src = packet.uplink or packet.from_node or "unknown"` (falsy values
modelled as `none`) and
`text = packet.decoded.text if packet.decoded and hasattr(packet.decoded, …) else ''`
— `decodedText = none` models a packet whose decoded payload has no text. -/
structure OPacket where
  uplink : Option String
  from_node : Option String
  decodedText : Option (List Char)
deriving DecidableEq

/-- Shared state of the old variant: the in-memory `messages` list and
the sqlite table behind `db_conn`. -/
structure OldState where
  messages : List Msg
  dbo : List Msg
deriving DecidableEq

/-- Sender extraction of the old `on_receive`. -/
def oldSrc (p : OPacket) : String :=
  (p.uplink <|> p.from_node).getD "unknown"

/-- Text extraction of the old `on_receive`: absent text yields `''`. -/
def oldTxt (p : OPacket) : List Char :=
  p.decodedText.getD []

/-- Store append `insert_message` (meshtastic-retro-ui-old.py lines 50-61): the insert
is wrapped in `try: … except Exception: pass`, so a store failure is
swallowed and the caller always continues; `dbFails` injects the failure. -/
def insert_message (dbFails : Bool) (conn : List Msg) (m : Msg) : List Msg :=
  if dbFails then conn else conn ++ [m]

/-- Handler `on_receive` (meshtastic-retro-ui-old.py lines 64-77): builds the
tuple `(time.time(), src, text)` — with `text = ''` when the payload has
no text — appends it to `messages` and calls `insert_message`. -/
def on_receive (dbFails : Bool) (p : OPacket) (now : ℚ) (s : OldState) : OldState :=
  let m : Msg := ⟨now, oldSrc p, oldTxt p⟩
  ⟨s.messages ++ [m], insert_message dbFails s.dbo m⟩

/-! ## History load (main.py `load_history`, meshtastic-retro-ui.py `_history`)

`SELECT ts, src, txt FROM messages ORDER BY ts DESC LIMIT ?` followed by
`list(reversed(...))`. The table is unindexed, so sqlite scans rows in
insertion (rowid) order and sorts by `ts` descending; rows with equal
`ts` are returned in scan order (a stable sort — one of the orders the
SQL standard leaves unspecified, and the one sqlite realizes here). The
sort is modelled as a stable insertion sort by descending `ts`. -/

/-- Stable descending insertion: `m` is placed before the first element
whose timestamp is not strictly greater, so earlier-inserted rows keep
their position among equal timestamps. -/
def insertDesc (m : Msg) : List Msg → List Msg
  | [] => [m]
  | x :: xs => if m.ts < x.ts then x :: insertDesc m xs else m :: x :: xs

/-- Stable sort of the table by descending timestamp. -/
def sortDesc : List Msg → List Msg
  | [] => []
  | x :: xs => insertDesc x (sortDesc xs)

/-- Query `load_history(limit)` / `_history(limit)`: most recent `limit` rows,
returned oldest-first. -/
def load_history (limit : ℕ) (rows : List Msg) : List Msg :=
  ((sortDesc rows).take limit).reverse

/-! ## Foreground send paths -/

/-- Python `str.strip()` whitespace test, restricted to the characters
the curses input loop can produce plus standard whitespace. -/
def pySpace (c : Char) : Bool :=
  c == ' ' || c == '\t' || c == '\n' || c == '\r' || c == '\x0b' || c == '\x0c'

/-- Python `s.strip()`. -/
def pyStrip (l : List Char) : List Char :=
  ((l.dropWhile pySpace).reverse.dropWhile pySpace).reverse

/-- State of the serial variant's UI: sqlite table and in-memory `msgs`. -/
structure UIState where
  db : List Msg
  msgs : List Msg
deriving DecidableEq

/-- The `"send failed: …"` echo text (error details abstracted). -/
def sendFailMsg : List Char := "send failed".toList

/-- Enter-key branch of `run_ui` (main.py lines 190-205):
`text = input_buf.strip()`; only `if text and link_up_evt.is_set():` does
it insert the `"You"` row, echo it to `msgs`, and call
`iface.sendText(text)` (a failure there appends an `"ERR"` echo).
With the link down the action is dropped entirely. -/
def run_ui_send (linkUp : Bool) (buf : List Char) (now errNow : ℚ)
    (sendFails : Bool) (st : UIState) : UIState :=
  let text := pyStrip buf
  if text ≠ [] ∧ linkUp = true then
    let m : Msg := ⟨now, "You", text⟩
    let st1 : UIState := ⟨st.db ++ [m], st.msgs ++ [m]⟩
    if sendFails then ⟨st1.db, st1.msgs ++ [⟨errNow, "ERR", sendFailMsg⟩]⟩
    else st1
  else st

/-- State of the BLE variant's UI: sqlite table, in-memory `msgs`, and
the bounded `outgoing_q`. -/
structure UIStateB where
  db : List Msg
  msgs : List Msg
  outq : List (List Char)
deriving DecidableEq

/-- Outcome of the BLE Enter-key branch. `blockedOnOutbox`: the echo and
store write are already done, but `outgoing_q.put(msg)` found the
capacity-256 queue full and blocks. -/
inductive UiSendResult
  | idle (st : UIStateB)
  | sent (st : UIStateB)
  | blockedOnOutbox (st : UIStateB)
deriving DecidableEq

/-- The state carried by any `UiSendResult`. -/
def UiSendResult.state : UiSendResult → UIStateB
  | .idle s => s
  | .sent s => s
  | .blockedOnOutbox s => s

/-- Enter-key branch of `_ui` (meshtastic-retro-ui.py lines 500-509):
`msg = inp.strip()`; `if msg:` insert the `"You"` row, echo to `msgs`,
then `outgoing_q.put(msg)`. The ambient link state (`link_up_evt`) is
passed in but never consulted by this branch — the echo, the store write
and the offer happen regardless of it, before any transport activity. -/
def ui_send (linkUp : Bool) (buf : List Char) (now : ℚ) (st : UIStateB) :
    UiSendResult :=
  let _ := linkUp
  let msg := pyStrip buf
  if msg = [] then .idle st
  else
    let m : Msg := ⟨now, "You", msg⟩
    let st1 : UIStateB := ⟨st.db ++ [m], st.msgs ++ [m], st.outq⟩
    if st1.outq.length < OUTBOX_CAP then .sent ⟨st1.db, st1.msgs, st1.outq ++ [msg]⟩
    else .blockedOnOutbox st1

/-! ## BLE Supervisor drain loop (meshtastic-retro-ui.py lines 294-342) -/

/-- Diagnostic lines written by the drain loop: the unconditional
pre-send `# Sending message: '…'` line, the success line
`# Message sent successfully`, and the failure line `# Send error: …`. -/
inductive DLog
  | sending (msg : List Char)
  | sentOk
  | sendError
deriving DecidableEq

/-- The inner communication loop, driven over the current `outgoing_q`
contents until the queue is empty (the `queue.Empty` heartbeat branch)
or the guard `consecutive_errors < 3` fails. Per iteration: pop `msg`,
log the pre-send line, then `with _iface_lock: if _iface:` — when the
shared handle is `none` the body is skipped (no send, no error count, no
further log); otherwise `sendText` either succeeds (errors reset to 0)
or raises (`consecutive_errors += 1`, and the loop breaks once it
reaches 3, leaving the rest of the queue unsent). `ok` tells which
texts the transport would accept. Returns the final error counter, the
diagnostic lines, and the texts left in the queue. -/
def drain_loop (iface : Option Unit) (ok : List Char → Bool) :
    ℕ → List (List Char) → ℕ × List DLog × List (List Char)
  | errs, [] => (errs, [], [])
  | errs, msg :: rest =>
    if 3 ≤ errs then (errs, [], msg :: rest)
    else
      match iface with
      | none =>
        let r := drain_loop iface ok errs rest
        (r.1, DLog.sending msg :: r.2.1, r.2.2)
      | some _ =>
        if ok msg then
          let r := drain_loop iface ok 0 rest
          (r.1, DLog.sending msg :: DLog.sentOk :: r.2.1, r.2.2)
        else
          let r := drain_loop iface ok (errs + 1) rest
          (r.1, DLog.sending msg :: DLog.sendError :: r.2.1, r.2.2)

/-- Whether a diagnostic line witnesses an actual `sendText` call. -/
def isAttempt : DLog → Bool
  | .sending _ => false
  | .sentOk => true
  | .sendError => true

/-- Number of `sendText` calls recorded in a diagnostic trace. -/
def attempts (ls : List DLog) : ℕ := (ls.filter isAttempt).length

/-! ## Connection retry loops -/

/-- Backoff of the BLE `_radio_worker` (meshtastic-retro-ui.py line 373):
`wait_time = min(10 + retry_count * 5, 60)`. -/
def ble_wait (r : ℕ) : ℕ := min (10 + r * 5) 60

/-- Connection attempts performed by the BLE `_radio_worker` when every
attempt fails and the shutdown signal is never set. The loop guard is
`while not stop_evt.is_set() and retry_count < max_retries` with
`max_retries = 10`; each failed attempt does `retry_count += 1`. `budget`
counts the failure opportunities offered (how long the process keeps
running); the result is how many attempts the worker actually makes. -/
def ble_worker_attempts : ℕ → ℕ → ℕ
  | _, 0 => 0
  | retry, budget + 1 =>
    if retry < 10 then 1 + ble_worker_attempts (retry + 1) budget else 0

/-- Connection attempts performed by the serial `radio_worker` (main.py
lines 85-113) when every attempt fails: the loop is
`while not stop_evt.is_set():` with a fixed `time.sleep(2)` after each
failure, so it makes one attempt per opportunity, forever. -/
def main_worker_attempts : ℕ → ℕ
  | 0 => 0
  | budget + 1 => 1 + main_worker_attempts budget

/-- The serial variant's fixed backoff: `time.sleep(2)`. -/
def main_wait : ℕ := 2

/-! ## Concrete instances used by witnesses and counterexamples -/

/-- UTF-8 byte length of a text (the unit the spec measures `MAX_LEN` in). -/
def byteLen (l : List Char) : ℕ := (l.map Char.utf8Size).sum

/-- A small inbound packet whose timestamp is already in seconds. -/
def pktSec : MPacket := ⟨some ['h', 'i'], some 5, some "alice"⟩

/-- The message `pktSec` ingests to. -/
def msgSec : Msg := ⟨5, "alice", ['h', 'i']⟩

/-- An ingest state whose `incoming_q` already holds `INBOX_CAP` items. -/
def fullInbox : IngestState := ⟨[], List.replicate INBOX_CAP ⟨0, "x", ['x']⟩, []⟩

/-- 121 copies of a two-byte character: 242 UTF-8 bytes but only 121
code points. -/
def accented : List Char := List.replicate 121 'é'

/-! ## Claims -/

/-- C6 (confirmed): for every inbound packet whose raw timestamp is
greater than 1e12, the Ingest Pipeline divides it by 1000 before
storing/enqueuing; a timestamp not greater than 1e12 is stored
unchanged. The stored message is the one `on_text` both inserts and
enqueues. -/
theorem claim_c6_timestamp_normalization (p : MPacket) (now raw : ℚ) (m : Msg)
    (hraw : p.rxTime = some raw) (hm : ingestMsg p now = some m) :
    (1000000000000 < raw → m.ts = raw / 1000) ∧
    (raw ≤ 1000000000000 → m.ts = raw) := by
  have hts : m.ts = normTs raw := by
    cases hdt : p.decodedText with
    | none => simp [ingestMsg, hdt] at hm
    | some t =>
      cases t with
      | nil => simp [ingestMsg, hdt] at hm
      | cons c cs =>
        simp [ingestMsg, hdt, hraw] at hm
        rw [← hm]
  constructor
  · intro h
    rw [hts, normTs, if_pos (show raw > 1000000000000 from h)]
  · intro h
    rw [hts, normTs, if_neg (show ¬raw > 1000000000000 from not_lt.mpr h)]

/-- C6 witness: a seconds-valued timestamp (5) is stored unchanged, and
the `>1e12` branch divides `1700000000000` down to `1700000000`. -/
theorem claim_c6_witness :
    ((5 : ℚ) ≤ 1000000000000 ∧ msgSec.ts = 5) ∧
    normTs 1700000000000 = 1700000000 := by
  refine ⟨⟨by norm_num, ?_⟩, by norm_num [normTs]⟩
  exact (claim_c6_timestamp_normalization pktSec 0 5 msgSec rfl (by decide)).2
    (by norm_num)

/-- C9 (corrected): truncation in `on_text` is `text[:MAX_LEN]`, a slice
by code points, not by bytes. This theorem is the amended claim: a
payload longer than `MAX_LEN` characters is stored with exactly
`MAX_LEN` characters. -/
theorem claim_c9_char_truncation (p : MPacket) (now : ℚ) (m : Msg)
    (t : List Char) (ht : p.decodedText = some t) (hlen : MAX_LEN < t.length)
    (hm : ingestMsg p now = some m) : m.txt.length = MAX_LEN := by
  cases t with
  | nil => simp at hlen
  | cons c cs =>
    simp [ingestMsg, ht] at hm
    rw [← hm]
    simp only [List.length_take]
    omega

set_option maxRecDepth 8000 in
/-- C9 witness: a 241-character ASCII payload is stored with 240
characters. -/
theorem claim_c9_witness :
    MAX_LEN < (List.replicate 241 'a').length ∧
    ingestMsg ⟨some (List.replicate 241 'a'), some 5, some "alice"⟩ 0
      = some ⟨5, "alice", List.replicate 240 'a'⟩ ∧
    (⟨5, "alice", List.replicate 240 'a'⟩ : Msg).txt.length = MAX_LEN := by
  refine ⟨by decide, by decide, ?_⟩
  exact claim_c9_char_truncation ⟨some (List.replicate 241 'a'), some 5, some "alice"⟩
    0 ⟨5, "alice", List.replicate 240 'a'⟩ (List.replicate 241 'a') rfl (by decide)
    (by decide)

set_option maxRecDepth 8000 in
/-- C9 counterexample: the claim as stated measures `MAX_LEN` in bytes.
`accented` is 242 UTF-8 bytes long — longer than `MAX_LEN` bytes — yet
it is stored untruncated, with byte length 242 ≠ 240: the code slices by
characters (121 ≤ 240), not bytes. -/
theorem claim_c9_cex :
    MAX_LEN < byteLen accented ∧
    ingestMsg ⟨some accented, some 5, some "alice"⟩ 0 = some ⟨5, "alice", accented⟩ ∧
    byteLen accented ≠ MAX_LEN := by
  refine ⟨by decide, by decide, by decide⟩

/-- C7 (corrected, amended part): in main.py every Message produced by
`on_text` has non-empty text, and a packet without text (or with the
falsy empty string) produces no Message at all — the handler returns
with the state untouched. -/
theorem claim_c7_nonempty_text (p : MPacket) (now : ℚ) (m : Msg)
    (s : IngestState) :
    (ingestMsg p now = some m → m.txt ≠ []) ∧
    (ingestMsg p now = none → on_text p now s = .ignored s) := by
  constructor
  · intro hm
    cases hdt : p.decodedText with
    | none => simp [ingestMsg, hdt] at hm
    | some t =>
      cases t with
      | nil => simp [ingestMsg, hdt] at hm
      | cons c cs =>
        simp [ingestMsg, hdt] at hm
        rw [← hm]
        simp [MAX_LEN]
  · intro hn
    simp [on_text, hn]

/-- C7 witness: `pktSec` produces `msgSec`, whose text is non-empty. -/
theorem claim_c7_witness :
    ingestMsg pktSec 0 = some msgSec ∧ msgSec.txt ≠ [] :=
  ⟨by decide, (claim_c7_nonempty_text pktSec 0 msgSec ⟨[], [], []⟩).1 (by decide)⟩

/-- C7 counterexample: in the old variant (meshtastic-retro-ui-old.py),
a packet whose decoded payload has no text is not ignored: `on_receive`
builds a Message with `text = ''` and both appends it to the in-memory
list and stores it, so a stored Message can have empty text. -/
theorem claim_c7_cex :
    on_receive false ⟨none, none, none⟩ 7 ⟨[], []⟩
      = ⟨[⟨7, "unknown", []⟩], [⟨7, "unknown", []⟩]⟩ ∧
    (⟨7, "unknown", []⟩ : Msg).txt = [] := by
  exact ⟨by decide, rfl⟩

/-- C1 (corrected, amended part): whenever `on_text` produces a Message,
the Durable Store insert happens before (and independently of) the
Inbox publish — the resulting db always ends with the new row. When the
queue has room the tuple is also enqueued; when the queue is full the
handler does not drop the enqueue but blocks inside `Queue.put`
(`.blocked`), with the row already on disk. -/
theorem claim_c1_persist_independent (p : MPacket) (now : ℚ)
    (s : IngestState) (m : Msg) (hm : ingestMsg p now = some m) :
    (s.inq.length < INBOX_CAP →
      on_text p now s = .done ⟨s.db ++ [m], s.inq ++ [m], s.log ++ ["rawpacket"]⟩) ∧
    (INBOX_CAP ≤ s.inq.length →
      on_text p now s = .blocked ⟨s.db ++ [m], s.inq, s.log ++ ["rawpacket"]⟩) := by
  constructor
  · intro h
    simp [on_text, hm, h]
  · intro h
    simp [on_text, hm, if_neg (not_lt.mpr h)]

/-- C1 witness: with room in the queue, `pktSec` is persisted and
enqueued. -/
theorem claim_c1_witness :
    ingestMsg pktSec 0 = some msgSec ∧ (0 : ℕ) < INBOX_CAP ∧
    on_text pktSec 0 ⟨[], [], []⟩ = .done ⟨[msgSec], [msgSec], ["rawpacket"]⟩ := by
  refine ⟨by decide, by decide, ?_⟩
  have h := (claim_c1_persist_independent pktSec 0 ⟨[], [], []⟩ msgSec (by decide)).1
    (by decide)
  simpa using h

set_option maxRecDepth 10000 in
/-- C1 counterexample: with `incoming_q` at capacity (1024 items) and no
consumer able to run inside the handler, `on_text` reaches the blocking
`incoming_q.put` and blocks — the enqueue is neither completed nor
dropped, refuting "a full Inbox Queue never blocks the handler … on
queue overflow only the enqueue is dropped". The row is on disk first. -/
theorem claim_c1_cex :
    on_text pktSec 0 fullInbox
      = .blocked ⟨[msgSec], List.replicate INBOX_CAP ⟨0, "x", ['x']⟩, ["rawpacket"]⟩ := by
  decide

/-- C4 (corrected, amended part): the old variant's `insert_message`
swallows store failures (`except Exception: pass`), so its caller
`on_receive` always continues — the in-memory list grows no matter what
the store did, and on failure the table is simply unchanged. In main.py,
by contrast, the uncaught store failure escapes `on_text` as an error to
its caller, interrupting the ingest path. -/
theorem claim_c4_store_failure_containment (f : Bool) (p : OPacket)
    (now : ℚ) (s : OldState) (q : MPacket) (t : IngestState) (m : Msg) :
    ((on_receive f p now s).messages
       = s.messages ++ [⟨now, oldSrc p, oldTxt p⟩]) ∧
    (f = true → (on_receive f p now s).dbo = s.dbo) ∧
    (f = false → (on_receive f p now s).dbo = s.dbo ++ [⟨now, oldSrc p, oldTxt p⟩]) ∧
    (ingestMsg q now = some m →
      on_text_fallible true q now t = .error "db insert failed") := by
  refine ⟨rfl, fun hf => ?_, fun hf => ?_, fun hm => ?_⟩
  · subst hf; simp [on_receive, insert_message]
  · subst hf; simp [on_receive, insert_message]
  · simp [on_text_fallible, hm]

/-- C4 witness: a failing store leaves the old variant's caller intact
(message still echoed, table unchanged) while main.py's `on_text`
propagates the failure. -/
theorem claim_c4_witness :
    (on_receive true ⟨none, some "bob", some ['y', 'o']⟩ 3 ⟨[], []⟩).messages
      = [⟨3, "bob", ['y', 'o']⟩] ∧
    (on_receive true ⟨none, some "bob", some ['y', 'o']⟩ 3 ⟨[], []⟩).dbo = [] ∧
    on_text_fallible true pktSec 0 ⟨[], [], []⟩ = .error "db insert failed" := by
  have h := claim_c4_store_failure_containment true ⟨none, some "bob", some ['y', 'o']⟩
    3 ⟨[], []⟩ pktSec ⟨[], [], []⟩ msgSec
  refine ⟨?_, ?_, h.2.2.2 (by decide)⟩
  · simpa [oldSrc, oldTxt] using h.1
  · simpa using h.2.1 rfl

/-- C4 counterexample: in main.py the insert inside `on_text` is not
guarded by any try/except, so a store failure is raised to the handler's
caller — the ingest path is interrupted (and the enqueue skipped),
refuting "the append never raises an error to its caller". -/
theorem claim_c4_cex :
    on_text_fallible true pktSec 5 ⟨[], [], []⟩ = .error "db insert failed" := rfl

/-- C3 (corrected, amended part): in the BLE variant the Enter-key
branch echoes and persists the `"You"` Message regardless of the ambient
link state (the branch never consults it — the result is identical for
any two link states) and before any transport activity: even when the
Outbox put blocks, echo and store write are already done. In the serial
variant (main.py) the same action is dropped entirely when the link is
down, and echoes/persists (even if the later send fails) when it is up. -/
theorem claim_c3_echo_persist (lk lk2 : Bool) (buf : List Char)
    (now errNow : ℚ) (sf : Bool) (sb : UIStateB) (sm : UIState)
    (h : pyStrip buf ≠ []) :
    (ui_send lk buf now sb = ui_send lk2 buf now sb) ∧
    ((ui_send lk buf now sb).state.db = sb.db ++ [⟨now, "You", pyStrip buf⟩]) ∧
    ((ui_send lk buf now sb).state.msgs = sb.msgs ++ [⟨now, "You", pyStrip buf⟩]) ∧
    (run_ui_send false buf now errNow sf sm = sm) ∧
    ((run_ui_send true buf now errNow sf sm).db
       = sm.db ++ [⟨now, "You", pyStrip buf⟩]) := by
  refine ⟨rfl, ?_, ?_, ?_, ?_⟩
  · simp only [ui_send, if_neg (by simpa using h)]
    split <;> simp [UiSendResult.state]
  · simp only [ui_send, if_neg (by simpa using h)]
    split <;> simp [UiSendResult.state]
  · simp [run_ui_send]
  · simp only [run_ui_send]
    rw [if_pos (show pyStrip buf ≠ [] ∧ True from ⟨h, trivial⟩)]
    split <;> rfl

/-- C3 witness: sending "hello" with the link down: the BLE variant
persists and echoes it anyway; main.py does neither. -/
theorem claim_c3_witness :
    pyStrip "hello".toList ≠ [] ∧
    (ui_send false "hello".toList 3 ⟨[], [], []⟩).state.db
      = [⟨3, "You", pyStrip "hello".toList⟩] ∧
    run_ui_send false "hello".toList 3 0 false ⟨[], []⟩ = ⟨[], []⟩ := by
  have h := claim_c3_echo_persist false true "hello".toList 3 0 false
    ⟨[], [], []⟩ ⟨[], []⟩ (by decide)
  exact ⟨by decide, by simpa using h.2.1, h.2.2.2.1⟩

/-- C3 counterexample: in main.py (cited by the claim), a send of
non-empty "hello" while the link-up flag is clear is dropped entirely —
no local echo and no Durable Store write — refuting "appends … and
writes it to the Durable Store regardless of the current LinkState". -/
theorem claim_c3_cex :
    pyStrip "hello".toList ≠ [] ∧
    run_ui_send false "hello".toList 1 2 false ⟨[], []⟩ = ⟨[], []⟩ := by
  exact ⟨by decide, by decide⟩

/-- C2 (corrected, amended part): with every attempt failing and
shutdown never signalled, the serial `radio_worker` makes one attempt
per opportunity forever (it never gives up), and the BLE
`_radio_worker`'s backoff `min(10 + 5·retry, 60)` is non-decreasing and
capped at 60 — but the BLE worker makes at most 10 attempts in total,
however long the process runs. -/
theorem claim_c2_retry_behavior (budget r : ℕ) :
    ble_worker_attempts 0 budget ≤ 10 ∧
    main_worker_attempts budget = budget ∧
    ble_wait r ≤ ble_wait (r + 1) ∧ ble_wait r ≤ 60 := by
  have hble : ∀ (b retry : ℕ), ble_worker_attempts retry b ≤ 10 - retry := by
    intro b
    induction b with
    | zero => intro retry; simp [ble_worker_attempts]
    | succ b ih =>
      intro retry
      by_cases hr : retry < 10
      · have := ih (retry + 1)
        simp only [ble_worker_attempts, if_pos hr]
        omega
      · simp only [ble_worker_attempts, if_neg hr]
        omega
  have hmain : ∀ b : ℕ, main_worker_attempts b = b := by
    intro b
    induction b with
    | zero => rfl
    | succ b ih =>
      simp only [main_worker_attempts, ih]
      omega
  refine ⟨by simpa using hble budget 0, hmain budget, ?_, ?_⟩
  · simp only [ble_wait]
    omega
  · simp only [ble_wait]
    omega

/-- C2 counterexample: the claim says the Supervisor "never permanently
gives up while the process runs". Offered 20 failure opportunities with
shutdown never set, the BLE worker makes only 10 connection attempts —
after `retry_count` reaches `max_retries = 10` it logs "Max retries
exceeded" and exits for good. -/
theorem claim_c2_cex :
    ble_worker_attempts 0 20 = 10 ∧ (10 : ℕ) < 20 := by decide

/-- Once the consecutive-error counter has reached 3 the drain loop's
guard fails immediately: nothing further is popped or logged. -/
theorem drain_loop_stopped (iface : Option Unit) (ok : List Char → Bool)
    (errs : ℕ) (q : List (List Char)) (h : 3 ≤ errs) :
    drain_loop iface ok errs q = (errs, [], q) := by
  cases q with
  | nil => cases iface <;> simp [drain_loop]
  | cons msg rest => simp [drain_loop, if_pos h]

/-- Each popped text causes at most one `sendText` call: the number of
send attempts recorded in the trace never exceeds the number of texts
that were in the queue. -/
theorem drain_loop_attempts_le (iface : Option Unit) (ok : List Char → Bool) :
    ∀ (q : List (List Char)) (errs : ℕ),
      attempts (drain_loop iface ok errs q).2.1 ≤ q.length := by
  intro q
  induction q with
  | nil => intro errs; simp [drain_loop, attempts]
  | cons msg rest ih =>
    intro errs
    by_cases h3 : 3 ≤ errs
    · simp [drain_loop_stopped iface ok errs _ h3, attempts]
    · simp only [drain_loop, if_neg h3]
      cases iface with
      | none =>
        simpa [attempts, isAttempt] using
          Nat.le_succ_of_le (ih errs)
      | some u =>
        by_cases hok : ok msg
        · simp only [if_pos hok]
          have := ih 0
          simp only [attempts, List.filter, isAttempt, List.length_cons] at this ⊢
          omega
        · simp only [if_neg hok]
          have := ih (errs + 1)
          simp only [attempts, List.filter, isAttempt, List.length_cons] at this ⊢
          omega

/-- A failed (or skipped) text is never requeued: what remains in the
queue after the loop is a suffix of what was there before. -/
theorem drain_loop_no_requeue (iface : Option Unit) (ok : List Char → Bool) :
    ∀ (q : List (List Char)) (errs : ℕ),
      (drain_loop iface ok errs q).2.2 <:+ q := by
  intro q
  induction q with
  | nil => intro errs; simp [drain_loop]
  | cons msg rest ih =>
    intro errs
    by_cases h3 : 3 ≤ errs
    · simp [drain_loop_stopped iface ok errs _ h3]
    · simp only [drain_loop, if_neg h3]
      cases iface with
      | none => exact (ih errs).trans (List.suffix_cons msg rest)
      | some u =>
        by_cases hok : ok msg
        · simp only [if_pos hok]
          exact (ih 0).trans (List.suffix_cons msg rest)
        · simp only [if_neg hok]
          exact (ih (errs + 1)).trans (List.suffix_cons msg rest)

/-- C5 (corrected, amended part): per popped text the transport send is
attempted at most once and a failed message is never put back (the
remaining queue is a suffix of the original); but the connection is not
abandoned on the first send failure — with three texts all failing, the
loop keeps the connection through the first two failures and only stops
after the third consecutive error, leaving the rest of the queue. -/
theorem claim_c5_at_most_once (a b c : List Char) (rest : List (List Char))
    (iface : Option Unit) (ok : List Char → Bool) (errs : ℕ)
    (q : List (List Char)) :
    (drain_loop (some ()) (fun _ => false) 0 (a :: b :: c :: rest)
       = (3, [DLog.sending a, DLog.sendError, DLog.sending b, DLog.sendError,
              DLog.sending c, DLog.sendError], rest)) ∧
    attempts (drain_loop iface ok errs q).2.1 ≤ q.length ∧
    (drain_loop iface ok errs q).2.2 <:+ q := by
  refine ⟨?_, drain_loop_attempts_le iface ok q errs,
    drain_loop_no_requeue iface ok q errs⟩
  simp [drain_loop, drain_loop_stopped (some ()) (fun _ => false) 3 rest (le_refl 3)]

/-- C5 counterexample: after the first send failure (`consecutive_errors`
becomes 1 < 3) the loop does not transition to backoff — it pops and
attempts the next message on the same connection, finishing the queue
with the connection still held. This refutes "transitions immediately to
ERROR_BACKOFF … abandoned on the first send failure". -/
theorem claim_c5_cex :
    drain_loop (some ()) (fun _ => false) 0 [['h', 'i'], ['y', 'o']]
      = (2, [DLog.sending ['h', 'i'], DLog.sendError,
             DLog.sending ['y', 'o'], DLog.sendError], []) := by
  decide

/-- C10 (corrected, amended part): while `_iface` is `None` and the
error counter is below the loop bound, every popped text is dropped:
`sendText` is never called (no `sentOk`/`sendError` entries — the trace
is exactly the routine pre-send lines), the error counter is unchanged,
and nothing is requeued. The drop itself produces no failure diagnostic;
the only log output is the `# Sending message: …` line per text. -/
theorem claim_c10_silent_drop (ok : List Char → Bool) (errs : ℕ)
    (q : List (List Char)) (h : errs < 3) :
    drain_loop none ok errs q = (errs, q.map DLog.sending, []) ∧
    attempts (q.map DLog.sending) = 0 := by
  constructor
  · induction q with
    | nil => simp [drain_loop]
    | cons msg rest ih =>
      simp only [drain_loop, if_neg (not_le.mpr h), List.map_cons]
      rw [ih]
  · induction q with
    | nil => simp [attempts]
    | cons msg rest ih => simp [attempts, isAttempt] at ih ⊢

/-- C10 witness: one text popped with no interface: dropped, error
counter untouched, only the routine pre-send line in the trace. -/
theorem claim_c10_witness :
    (0 : ℕ) < 3 ∧
    drain_loop none (fun _ => true) 0 [['h', 'i']]
      = (0, [DLog.sending ['h', 'i']], []) := by
  refine ⟨by decide, ?_⟩
  have h := (claim_c10_silent_drop (fun _ => true) 0 [['h', 'i']] (by decide)).1
  simpa using h

/-- C10 counterexample: the claim's conjunct "no diagnostic is logged"
is false — before the `if _iface:` check the loop unconditionally writes
the `# Sending message: '…'` line to the log, so the drop does leave a
(non-failure) diagnostic trace. -/
theorem claim_c10_cex :
    (drain_loop none (fun _ => true) 0 [['h', 'i']]).2.1
      = [DLog.sending ['h', 'i']] ∧
    [DLog.sending ['h', 'i']] ≠ ([] : List DLog) := by
  exact ⟨by decide, by decide⟩

/-- Inserting into the sorted table is a permutation of consing. -/
theorem insertDesc_perm (m : Msg) (l : List Msg) :
    List.Perm (insertDesc m l) (m :: l) := by
  induction l with
  | nil => simp [insertDesc]
  | cons x xs ih =>
    by_cases h : m.ts < x.ts
    · simp only [insertDesc, if_pos h]
      exact (ih.cons x).trans (List.Perm.swap m x xs)
    · simp [insertDesc, if_neg h]

/-- The modelled `ORDER BY ts DESC` output is a permutation of the table. -/
theorem sortDesc_perm (l : List Msg) : List.Perm (sortDesc l) l := by
  induction l with
  | nil => simp [sortDesc]
  | cons x xs ih =>
    exact (insertDesc_perm x (sortDesc xs)).trans (ih.cons x)

/-- Insertion preserves descending-timestamp sortedness. -/
theorem insertDesc_sorted (m : Msg) (l : List Msg)
    (h : l.Pairwise (fun a b : Msg => b.ts ≤ a.ts)) :
    (insertDesc m l).Pairwise (fun a b : Msg => b.ts ≤ a.ts) := by
  induction l with
  | nil => simp [insertDesc]
  | cons x xs ih =>
    rcases List.pairwise_cons.mp h with ⟨hx, hxs⟩
    by_cases hlt : m.ts < x.ts
    · simp only [insertDesc, if_pos hlt]
      refine List.pairwise_cons.mpr ⟨?_, ih hxs⟩
      intro y hy
      rcases List.mem_cons.mp ((insertDesc_perm m xs).mem_iff.mp hy) with rfl | hy2
      · exact le_of_lt hlt
      · exact hx y hy2
    · simp only [insertDesc, if_neg hlt]
      refine List.pairwise_cons.mpr ⟨?_, h⟩
      intro y hy
      rcases List.mem_cons.mp hy with rfl | hy2
      · exact not_lt.mp hlt
      · exact le_trans (hx y hy2) (not_lt.mp hlt)

/-- The modelled `ORDER BY ts DESC` output is sorted by descending
timestamp. -/
theorem sortDesc_sorted (l : List Msg) :
    (sortDesc l).Pairwise (fun a b : Msg => b.ts ≤ a.ts) := by
  induction l with
  | nil => simp [sortDesc]
  | cons x xs ih => exact insertDesc_sorted x (sortDesc xs) ih

/-- A row appended with a strictly maximal timestamp sorts to the front
of the descending order. -/
theorem sortDesc_append_max (rows : List Msg) (m : Msg)
    (h : ∀ x ∈ rows, x.ts < m.ts) :
    sortDesc (rows ++ [m]) = m :: sortDesc rows := by
  induction rows with
  | nil => simp [sortDesc, insertDesc]
  | cons x xs ih =>
    have hx : x.ts < m.ts := h x (List.mem_cons_self x xs)
    have hxs : ∀ y ∈ xs, y.ts < m.ts := fun y hy => h y (List.mem_cons_of_mem x hy)
    show insertDesc x (sortDesc (xs ++ [m])) = m :: insertDesc x (sortDesc xs)
    rw [ih hxs]
    simp only [insertDesc, if_pos hx]

/-- C8 (corrected, amended part): if the appended Message's timestamp is
strictly greater than every previously stored timestamp, then
`load_history` with any limit ≥ 1 returns an ascending-timestamp
sequence that contains it, has at most `limit` elements, and draws only
from the stored rows. -/
theorem claim_c8_roundtrip (rows : List Msg) (m : Msg) (k : ℕ)
    (h : ∀ x ∈ rows, x.ts < m.ts) :
    m ∈ load_history (k + 1) (rows ++ [m]) ∧
    (load_history (k + 1) (rows ++ [m])).Pairwise (fun a b : Msg => a.ts ≤ b.ts) ∧
    (load_history (k + 1) (rows ++ [m])).length ≤ k + 1 ∧
    ∀ y ∈ load_history (k + 1) (rows ++ [m]), y ∈ rows ++ [m] := by
  have hs := sortDesc_append_max rows m h
  have hsub : ∀ y ∈ (sortDesc rows).take k, y ∈ rows :=
    fun y hy => (sortDesc_perm rows).mem_iff.mp (List.take_subset k _ hy)
  refine ⟨?_, ?_, ?_, ?_⟩
  · simp [load_history, hs, List.take_succ_cons]
  · simp only [load_history, hs, List.take_succ_cons]
    rw [List.pairwise_reverse]
    refine List.pairwise_cons.mpr ⟨?_, ?_⟩
    · intro y hy
      exact le_of_lt (h y (hsub y hy))
    · exact (sortDesc_sorted rows).sublist (List.take_sublist k _)
  · simp only [load_history, hs, List.take_succ_cons, List.length_reverse,
      List.length_cons, List.length_take]
    omega
  · intro y hy
    simp only [load_history, hs, List.take_succ_cons, List.mem_reverse] at hy
    rcases List.mem_cons.mp hy with rfl | hy2
    · exact List.mem_append_right rows (List.mem_cons_self y [])
    · exact List.mem_append_left [m] (hsub y hy2)

/-- C8 witness: appending a strictly newer message to a one-row table
and loading with limit 2 returns it, last, in ascending order. -/
theorem claim_c8_witness :
    (⟨1, "a", ['x']⟩ : Msg).ts < (⟨2, "You", ['h', 'i']⟩ : Msg).ts ∧
    (⟨2, "You", ['h', 'i']⟩ : Msg)
      ∈ load_history 2 [⟨1, "a", ['x']⟩, ⟨2, "You", ['h', 'i']⟩] ∧
    (load_history 2 [⟨1, "a", ['x']⟩, ⟨2, "You", ['h', 'i']⟩]).length ≤ 2 := by
  have h := claim_c8_roundtrip [⟨1, "a", ['x']⟩] ⟨2, "You", ['h', 'i']⟩ 1 (by decide)
  exact ⟨by decide, by simpa using h.1, by simpa using h.2.2.1⟩

/-- C8 counterexample: the claim only requires the appended message's
timestamp to be ≥ all previously stored ones. With a tie (both rows have
ts = 5) and limit 1, `ORDER BY ts DESC LIMIT 1` keeps the earlier equal-
timestamp row, so the appended message is absent from the result —
refuting the claim as stated. -/
theorem claim_c8_cex :
    (⟨5, "a", ['x']⟩ : Msg).ts ≤ (⟨5, "You", ['y']⟩ : Msg).ts ∧
    (⟨5, "You", ['y']⟩ : Msg)
      ∉ load_history 1 [⟨5, "a", ['x']⟩, ⟨5, "You", ['y']⟩] := by
  exact ⟨by decide, by decide⟩
